import Mathlib

/-!
Verification of the Aether proxy agent (aether-proxy) against its
natural-language specification.

The Rust sources are shallowly embedded: machine integers become `Nat`
(with explicit `% 2 ^ w` where wrapping matters), byte buffers become
`List Nat`, fallible operations return `Except` or `Option`, and calls
into external libraries (the OS resolver, `flate2` gzip, `serde_json`,
the `http` method parser) become explicit function parameters so that
theorems quantify over every possible behaviour of those libraries.

File map of the embedded code:
* `src/tunnel/protocol.rs` — `MsgType`, `Frame`, `Frame.encode`,
  `Frame.decode`, `decompress_if_gzip`.
* `src/target_filter.rs` — `is_private_ip`, `DnsCache`,
  `resolve_public_addrs`, `validate_target`.
* `src/tunnel/stream_handler.rs` — response-chunk slicing, upstream
  error messages, the HTTP-method fallback.
* `src/proxy/delegate.rs` — `sanitize_upstream_error`.
* `src/tunnel/dispatcher.rs` — the dispatcher loop as a step function.
* `src/runtime.rs` — `DynamicConfig`, `apply_remote_config`.
-/

deriving instance DecidableEq for Except

namespace Aether

/-! ## Frame codec (src/tunnel/protocol.rs) -/

/-- Message types for the tunnel protocol (`MsgType`, protocol.rs:21). -/
inductive MsgType where
  | requestHeaders
  | requestBody
  | responseHeaders
  | responseBody
  | streamEnd
  | streamError
  | ping
  | pong
  | goAway
  | heartbeatData
  | heartbeatAck
deriving DecidableEq, Repr

/-- Numeric value of a message type (the `#[repr(u8)]` discriminants). -/
def MsgType.toU8 : MsgType → Nat
  | .requestHeaders => 0x01
  | .requestBody => 0x02
  | .responseHeaders => 0x03
  | .responseBody => 0x04
  | .streamEnd => 0x05
  | .streamError => 0x06
  | .ping => 0x10
  | .pong => 0x11
  | .goAway => 0x12
  | .heartbeatData => 0x13
  | .heartbeatAck => 0x14

/-- Decode a message-type byte (`MsgType::from_u8`, protocol.rs:36). -/
def MsgType.fromU8 (v : Nat) : Option MsgType :=
  if v = 0x01 then some .requestHeaders
  else if v = 0x02 then some .requestBody
  else if v = 0x03 then some .responseHeaders
  else if v = 0x04 then some .responseBody
  else if v = 0x05 then some .streamEnd
  else if v = 0x06 then some .streamError
  else if v = 0x10 then some .ping
  else if v = 0x11 then some .pong
  else if v = 0x12 then some .goAway
  else if v = 0x13 then some .heartbeatData
  else if v = 0x14 then some .heartbeatAck
  else none

/-- A single multiplexed frame (`Frame`, protocol.rs:56). `stream_id` is a
`u32` and `flags` a `u8` in the source; the byte payload is a `List Nat`. -/
structure Frame where
  streamId : Nat
  msgType : MsgType
  flags : Nat
  payload : List Nat
deriving DecidableEq, Repr

/-- Flag bit 0 END_STREAM (protocol.rs:14, tested by `Frame::is_end_stream`). -/
def Frame.isEndStream (f : Frame) : Bool := f.flags % 2 = 1

/-- Flag bit 1 GZIP_COMPRESSED (protocol.rs:15, tested by `Frame::is_gzip`). -/
def Frame.isGzip (f : Frame) : Bool := f.flags / 2 % 2 = 1

/-- Big-endian `u32` byte serialization (`BufMut::put_u32`); writing a `Nat`
this way truncates to the low 32 bits exactly as `as u32` does. -/
def be32 (n : Nat) : List Nat :=
  [n / 2 ^ 24 % 256, n / 2 ^ 16 % 256, n / 2 ^ 8 % 256, n % 256]

/-- Protocol errors (`ProtocolError`, protocol.rs:132). -/
inductive ProtocolError where
  | tooShort (expected actual : Nat)
  | incomplete (expected actual : Nat)
  | unknownMsgType (v : Nat)
deriving DecidableEq, Repr

/-- Encode a frame into bytes (`Frame::encode`, protocol.rs:87): 10-byte
big-endian header `stream_id (4) | msg_type (1) | flags (1) | payload_len (4)`
followed by the payload. -/
def Frame.encode (f : Frame) : List Nat :=
  be32 f.streamId ++ [f.msgType.toU8, f.flags] ++ be32 f.payload.length ++ f.payload

/-- Decode a frame from bytes (`Frame::decode`, protocol.rs:98). The source
first checks for at least `HEADER_SIZE = 10` bytes, then reads the header,
then checks the declared payload length against the remaining bytes, then
rejects unknown message types, in that order. Trailing bytes beyond the
declared payload length are ignored, as `Bytes::split_to` ignores them. -/
def Frame.decode : List Nat → Except ProtocolError Frame
  | b0 :: b1 :: b2 :: b3 :: b4 :: b5 :: b6 :: b7 :: b8 :: b9 :: rest =>
    let streamId := b0 * 2 ^ 24 + b1 * 2 ^ 16 + b2 * 2 ^ 8 + b3
    let payloadLen := b6 * 2 ^ 24 + b7 * 2 ^ 16 + b8 * 2 ^ 8 + b9
    if rest.length < payloadLen then
      .error (.incomplete (10 + payloadLen) (10 + rest.length))
    else
      match MsgType.fromU8 b4 with
      | none => .error (.unknownMsgType b4)
      | some mt => .ok ⟨streamId, mt, b5, rest.take payloadLen⟩
  | bytes => .error (.tooShort 10 bytes.length)

/-- Decoding the discriminant of a message type recovers it. -/
theorem MsgType.fromU8_toU8 (m : MsgType) : MsgType.fromU8 m.toU8 = some m := by
  cases m <;> rfl

/-- Reassembling the four big-endian bytes of a value below `2 ^ 32`
recovers the value. -/
theorem be32_fields (n : Nat) (h : n < 2 ^ 32) :
    n / 2 ^ 24 % 256 * 2 ^ 24 + n / 2 ^ 16 % 256 * 2 ^ 16 +
      n / 2 ^ 8 % 256 * 2 ^ 8 + n % 256 = n := by
  omega

/-- C3: for every frame whose fields fit their wire widths (`stream_id` a
`u32`, `flags` a `u8`, payload length representable as `u32`), decoding the
bytes produced by encoding the frame yields exactly the frame back. -/
theorem decode_encode (f : Frame) (hs : f.streamId < 2 ^ 32)
    (hf : f.flags < 256) (hp : f.payload.length < 2 ^ 32) :
    Frame.decode f.encode = .ok f := by
  obtain ⟨sid, mt, fl, pl⟩ := f
  simp only [Frame.encode, be32, List.cons_append, List.nil_append]
  simp only [Frame.decode]
  rw [be32_fields sid hs, be32_fields pl.length hp]
  rw [if_neg (by omega)]
  rw [MsgType.fromU8_toU8]
  simp [List.take_length]

/-- Concrete check that the round-trip theorem applies: a sample frame with
three payload bytes encodes and decodes back to itself. -/
theorem decode_encode_witness :
    (⟨7, .requestBody, 1, [10, 20, 30]⟩ : Frame).streamId < 2 ^ 32 ∧
      Frame.decode (Frame.encode ⟨7, .requestBody, 1, [10, 20, 30]⟩) =
        .ok ⟨7, .requestBody, 1, [10, 20, 30]⟩ :=
  ⟨by decide, decode_encode ⟨7, .requestBody, 1, [10, 20, 30]⟩
    (by decide) (by decide) (by decide)⟩

/-- The payload length declared in a frame header, read from bytes 6–9
big-endian (protocol.rs:108). -/
def headerPayloadLen (bytes : List Nat) : Nat :=
  bytes.getD 6 0 * 2 ^ 24 + bytes.getD 7 0 * 2 ^ 16 +
    bytes.getD 8 0 * 2 ^ 8 + bytes.getD 9 0

/-- The message-type byte of a frame header, byte 4 (protocol.rs:106). -/
def headerMsgType (bytes : List Nat) : Nat := bytes.getD 4 0

/-- C7: decoding returns TooShort exactly on inputs of fewer than 10 bytes;
Incomplete when the input has at least 10 bytes but the declared payload
length exceeds the bytes remaining after the header; UnknownMsgType when
neither holds and the msg_type byte is not one of the eleven defined values;
and otherwise succeeds. -/
theorem decode_error_classification (bytes : List Nat) :
    (bytes.length < 10 →
      Frame.decode bytes = .error (.tooShort 10 bytes.length)) ∧
    (10 ≤ bytes.length → bytes.length - 10 < headerPayloadLen bytes →
      Frame.decode bytes =
        .error (.incomplete (10 + headerPayloadLen bytes) bytes.length)) ∧
    (10 ≤ bytes.length → headerPayloadLen bytes ≤ bytes.length - 10 →
      MsgType.fromU8 (headerMsgType bytes) = none →
      Frame.decode bytes = .error (.unknownMsgType (headerMsgType bytes))) ∧
    (10 ≤ bytes.length → headerPayloadLen bytes ≤ bytes.length - 10 →
      (MsgType.fromU8 (headerMsgType bytes)).isSome →
      ∃ f, Frame.decode bytes = .ok f) := by
  rcases bytes with _ | ⟨b0, _ | ⟨b1, _ | ⟨b2, _ | ⟨b3, _ | ⟨b4, _ | ⟨b5,
    _ | ⟨b6, _ | ⟨b7, _ | ⟨b8, _ | ⟨b9, rest⟩⟩⟩⟩⟩⟩⟩⟩⟩⟩
  case nil =>
    exact ⟨fun _ => rfl, fun h => by simp at h, fun h => by simp at h,
      fun h => by simp at h⟩
  all_goals try exact ⟨fun _ => rfl,
    fun h => by simp only [List.length] at h; omega,
    fun h => by simp only [List.length] at h; omega,
    fun h => by simp only [List.length] at h; omega⟩
  have hpl : headerPayloadLen
      (b0 :: b1 :: b2 :: b3 :: b4 :: b5 :: b6 :: b7 :: b8 :: b9 :: rest) =
      b6 * 2 ^ 24 + b7 * 2 ^ 16 + b8 * 2 ^ 8 + b9 := rfl
  have hmtb : headerMsgType
      (b0 :: b1 :: b2 :: b3 :: b4 :: b5 :: b6 :: b7 :: b8 :: b9 :: rest) =
      b4 := rfl
  have hL : (b0 :: b1 :: b2 :: b3 :: b4 :: b5 :: b6 :: b7 :: b8 :: b9 ::
      rest).length = 10 + rest.length := by
    simp only [List.length_cons]
    omega
  refine ⟨fun h => by rw [hL] at h; omega, ?_, ?_, ?_⟩
  · intro _ hlen
    rw [hpl, hL] at hlen ⊢
    simp only [Frame.decode]
    rw [if_pos (by omega)]
  · intro _ hlen hmt
    rw [hpl, hL] at hlen
    rw [hmtb] at hmt ⊢
    simp only [Frame.decode]
    rw [if_neg (by omega), hmt]
  · intro _ hlen hmt
    rw [hpl, hL] at hlen
    rw [hmtb] at hmt
    simp only [Frame.decode]
    rw [if_neg (by omega)]
    obtain ⟨mt, hsome⟩ := Option.isSome_iff_exists.mp hmt
    rw [hsome]
    exact ⟨_, rfl⟩

/-- Concrete check for the decode error classification: a 10-byte input with
message-type byte 0x09 (undefined) and declared payload length 0 decodes to
UnknownMsgType 0x09. -/
theorem decode_error_classification_witness :
    Frame.decode [0, 0, 0, 1, 9, 0, 0, 0, 0, 0] =
      .error (.unknownMsgType 9) := by
  have h := (decode_error_classification [0, 0, 0, 1, 9, 0, 0, 0, 0, 0]).2.2.1
    (by decide) (by decide) (by decide)
  simpa [headerMsgType] using h

/-! ## Gzip handling (protocol.rs:172-201, stream_handler.rs:292-299)

The DEFLATE algorithm itself lives in the external `flate2` crate; both
`decompress_gzip` functions in the source are
`GzDecoder::new(data).read_to_end(&mut buf)` with no byte limit of any
kind, so they are embedded as an arbitrary function parameter `inflate`
(`none` models an I/O error from the decoder). -/

/-- Decompress-or-clone helper (`decompress_if_gzip`, protocol.rs:172):
with the GZIP flag the payload goes through the decoder, otherwise it is
returned as-is. No size ceiling appears anywhere on this path. -/
def decompressIfGzip (inflate : List Nat → Option (List Nat)) (f : Frame) :
    Option (List Nat) :=
  if f.isGzip then inflate f.payload else some f.payload

/-- Stands for the behaviour of the flate2 gzip decoder on one concrete
gzip-bomb input: a two-byte magic prefix here, decompressing to 64 MiB + 1
zero bytes. Real gzip admits such inputs (a DEFLATE stream may expand by a
factor of about 1000). -/
def gzipBombInflate : List Nat → Option (List Nat) :=
  fun _ => some (List.replicate (64 * 1024 * 1024 + 1) 0)

/-! ## Stream handler error reporting (stream_handler.rs:174-290) -/

/-- UTF-8 encoding of one character (RFC 3629), spelled out so that the
kernel can evaluate payloads of concrete messages. -/
def utf8Bytes (c : Char) : List Nat :=
  let n := c.toNat
  if n < 0x80 then [n]
  else if n < 0x800 then [0xC0 + n / 64, 0x80 + n % 64]
  else if n < 0x10000 then
    [0xE0 + n / 4096, 0x80 + n / 64 % 64, 0x80 + n % 64]
  else
    [0xF0 + n / 0x40000, 0x80 + n / 4096 % 64, 0x80 + n / 64 % 64,
      0x80 + n % 64]

/-- UTF-8 bytes of a string, the payload representation used when the
source converts an error message `String` into frame bytes. -/
def strBytes (s : String) : List Nat :=
  (s.data.map utf8Bytes).flatten

/-- Category of an upstream request failure, from the
`e.is_timeout() / e.is_connect()` discrimination (stream_handler.rs:178). -/
inductive UpstreamErrKind where
  | timeout
  | connect
  | other
deriving DecidableEq, Repr

/-- Error message for an upstream failure (stream_handler.rs:178-184).
The parameter `e` is the external reqwest error rendered to a string; the
source interpolates it verbatim into the message. -/
def upstreamErrorMsg : UpstreamErrKind → String → String
  | .timeout, _ => "upstream timeout"
  | .connect, e => "upstream connect error: " ++ e
  | .other, e => "upstream error: " ++ e

/-- StreamError frame sent by `send_error` (stream_handler.rs:278-290):
message bytes, flags 0, on the stream's id. -/
def sendErrorFrame (streamId : Nat) (msg : String) : Frame :=
  ⟨streamId, .streamError, 0, strBytes msg⟩

/-- The StreamError frame the stream handler emits on upstream failure
(stream_handler.rs:185 feeding send_error). -/
def upstreamFailureFrame (streamId : Nat) (kind : UpstreamErrKind)
    (e : String) : Frame :=
  sendErrorFrame streamId (upstreamErrorMsg kind e)

/-! ## URL sanitizer (src/proxy/delegate.rs:293-310)

Used only by the delegate endpoint, never by the tunnel stream handler.
The Rust `while let Some(start) = result.find(scheme)` loop shortens the
string by the scheme length on every iteration, so a fuel of the input
length is always sufficient; the fuel only realizes that termination
argument. -/

/-- Host-terminator set of the sanitizer (delegate.rs:302). -/
def isHostEnd (c : Char) : Bool :=
  c == '/' || c == '?' || c == '#' || c == ' '

/-- Index of the first occurrence of `pat` in `s` (Rust `str::find`). -/
def findSub (pat : List Char) : List Char → Option Nat
  | [] => if pat = [] then some 0 else none
  | c :: rest =>
    if pat.isPrefixOf (c :: rest) then some 0
    else (findSub pat rest).map (· + 1)

/-- One scheme pass of the sanitizer loop (delegate.rs:298-307): replace
each `scheme…host…` span by the host alone, where the host runs until a
terminator character or the end of the string. -/
def stripSchemeFuel (scheme : List Char) : Nat → List Char → List Char
  | 0, s => s
  | fuel + 1, s =>
    match findSub scheme s with
    | none => s
    | some start =>
      let afterScheme := start + scheme.length
      let tail := s.drop afterScheme
      let hostLen := (tail.takeWhile (fun c => !isHostEnd c)).length
      stripSchemeFuel scheme fuel
        (s.take start ++ tail.take hostLen ++ tail.drop hostLen)

/-- Strip full URLs from an error message (`sanitize_upstream_error`,
delegate.rs:293): first all `https://` spans, then all `http://` spans. -/
def sanitizeUpstreamError (msg : String) : String :=
  let pass1 := stripSchemeFuel "https://".data (msg.length + 1) msg.data
  let pass2 := stripSchemeFuel "http://".data (msg.length + 1) pass1
  String.mk pass2

/-! ## Response body chunk slicing (stream_handler.rs:224-253) -/

/-- Maximum response body chunk size per frame (stream_handler.rs:22). -/
def maxChunkSize : Nat := 32 * 1024

/-- The slicing loop for oversized chunks (stream_handler.rs:239-252):
repeatedly cut `min(offset + MAX_CHUNK_SIZE, len)`-bounded slices until the
offset reaches the chunk length. -/
def sliceLoop (chunk : List Nat) : List (List Nat) :=
  match chunk with
  | [] => []
  | a :: rest =>
    (a :: rest).take maxChunkSize :: sliceLoop ((a :: rest).drop maxChunkSize)
termination_by chunk.length
decreasing_by simp [maxChunkSize]; omega

/-- Payloads of the ResponseBody frames emitted for one upstream chunk
(stream_handler.rs:228-253): one frame when the chunk is at most 32 KiB,
otherwise the slices from the loop. -/
def sliceChunk (chunk : List Nat) : List (List Nat) :=
  if chunk.length ≤ maxChunkSize then [chunk] else sliceLoop chunk

/-- Concatenating the slices of the slicing loop recovers the chunk. -/
theorem sliceLoop_flatten (l : List Nat) : (sliceLoop l).flatten = l := by
  induction l using sliceLoop.induct with
  | case1 => rw [sliceLoop]; rfl
  | case2 a rest ih =>
    rw [sliceLoop, List.flatten_cons, ih, List.take_append_drop]

/-- The slicing loop emits the ceiling of length over 32 KiB many slices. -/
theorem sliceLoop_length (l : List Nat) :
    (sliceLoop l).length = (l.length + 32767) / 32768 := by
  induction l using sliceLoop.induct with
  | case1 => rw [sliceLoop]; rfl
  | case2 a rest ih =>
    rw [sliceLoop, List.length_cons, ih]
    simp only [List.length_drop, List.length_cons, maxChunkSize]
    omega

/-- Every slice from the slicing loop is at most 32 KiB long. -/
theorem sliceLoop_piece_le (l : List Nat) :
    ∀ p ∈ sliceLoop l, p.length ≤ maxChunkSize := by
  induction l using sliceLoop.induct with
  | case1 => intro p hp; rw [sliceLoop] at hp; simp at hp
  | case2 a rest ih =>
    intro p hp
    rw [sliceLoop] at hp
    rcases List.mem_cons.mp hp with h | h
    · subst h; exact List.length_take_le _ _
    · exact ih p h

/-- C8: an upstream response chunk of at most 32 KiB produces exactly one
ResponseBody payload carrying the chunk unchanged; a larger chunk produces
ceil(len / 32768) payloads, each at most 32 KiB, that concatenate back to
the chunk. -/
theorem sliceChunk_spec (chunk : List Nat) :
    (chunk.length ≤ 32 * 1024 → sliceChunk chunk = [chunk]) ∧
    (32 * 1024 < chunk.length →
      (sliceChunk chunk).length = (chunk.length + 32767) / 32768) ∧
    (∀ p ∈ sliceChunk chunk, p.length ≤ 32 * 1024) ∧
    (sliceChunk chunk).flatten = chunk := by
  refine ⟨fun h => ?_, fun h => ?_, ?_, ?_⟩
  · rw [sliceChunk, if_pos (by simpa [maxChunkSize] using h)]
  · rw [sliceChunk, if_neg (by simp [maxChunkSize]; omega), sliceLoop_length]
  · intro p hp
    rw [sliceChunk] at hp
    by_cases h : chunk.length ≤ maxChunkSize
    · rw [if_pos h] at hp
      simp only [List.mem_singleton] at hp
      subst hp
      simpa [maxChunkSize] using h
    · rw [if_neg h] at hp
      simpa [maxChunkSize] using sliceLoop_piece_le chunk p hp
  · rw [sliceChunk]
    by_cases h : chunk.length ≤ maxChunkSize
    · rw [if_pos h]; simp
    · rw [if_neg h]; exact sliceLoop_flatten chunk

/-- Concrete check of the slicing boundary: a chunk of 32 KiB + 1 bytes is
split into exactly two payloads, while 32 KiB yields exactly one. -/
theorem sliceChunk_spec_witness :
    (sliceChunk (List.replicate 32768 0)).length = 1 ∧
      (sliceChunk (List.replicate 32769 0)).length = 2 := by
  constructor
  · rw [(sliceChunk_spec (List.replicate 32768 0)).1
      (by rw [List.length_replicate])]
    rfl
  · rw [(sliceChunk_spec (List.replicate 32769 0)).2.1
      (by rw [List.length_replicate]; omega)]
    rw [List.length_replicate]

/-- C9 (amended): with the GZIP flag set, the decompressed payload is
returned in full whatever its length; no 64 MiB (or any) ceiling is
enforced on the decompressed size. -/
theorem decompressIfGzip_no_ceiling (inflate : List Nat → Option (List Nat))
    (f : Frame) (out : List Nat) (hg : f.isGzip = true)
    (hinf : inflate f.payload = some out)
    (_hbig : 64 * 1024 * 1024 < out.length) :
    decompressIfGzip inflate f = some out := by
  rw [decompressIfGzip, if_pos hg, hinf]

/-- Concrete check: the gzip-bomb frame's 64 MiB + 1 output is accepted. -/
theorem decompressIfGzip_no_ceiling_witness :
    decompressIfGzip gzipBombInflate ⟨1, .requestBody, 2, [31, 139]⟩ =
      some (List.replicate (64 * 1024 * 1024 + 1) 0) :=
  decompressIfGzip_no_ceiling gzipBombInflate _ _ (by decide) rfl
    (by rw [List.length_replicate]; omega)

/-- C9 counterexample: a frame with the GZIP flag whose payload
decompresses to 64 MiB + 1 bytes is not rejected — decompression succeeds
and hands the oversized plain payload onward. -/
theorem gzip_bomb_not_rejected :
    decompressIfGzip gzipBombInflate ⟨1, .requestBody, 2, [31, 139]⟩ =
      some (List.replicate (64 * 1024 * 1024 + 1) 0) ∧
      64 * 1024 * 1024 < (List.replicate (64 * 1024 * 1024 + 1) (0 : Nat)).length := by
  exact ⟨rfl, by rw [List.length_replicate]; omega⟩

/-- Sample reqwest error rendering containing the outgoing URL, as reqwest
produces when a request to that URL fails. -/
def sampleUpstreamErrText : String :=
  "error sending request for url (https://api.example.com/v1/chat?key=secret123)"

/-- C4 (amended): the tunnel stream handler applies no sanitization to
upstream error text — any URL (indeed any substring) of the reqwest error
string reappears verbatim in the StreamError payload it sends. -/
theorem streamError_no_sanitization (sid : Nat) (kind : UpstreamErrKind)
    (e pre url post : String) (hk : kind ≠ .timeout)
    (he : e = pre ++ url ++ post) :
    ∃ p q, upstreamErrorMsg kind e = p ++ url ++ q ∧
      (upstreamFailureFrame sid kind e).payload = strBytes (p ++ url ++ q) := by
  cases kind with
  | timeout => exact absurd rfl hk
  | connect =>
    have hmsg : upstreamErrorMsg .connect e =
        ("upstream connect error: " ++ pre) ++ url ++ post := by
      rw [upstreamErrorMsg, he]
      simp [String.append_assoc]
    exact ⟨_, _, hmsg, by rw [upstreamFailureFrame, sendErrorFrame, hmsg]⟩
  | other =>
    have hmsg : upstreamErrorMsg .other e =
        ("upstream error: " ++ pre) ++ url ++ post := by
      rw [upstreamErrorMsg, he]
      simp [String.append_assoc]
    exact ⟨_, _, hmsg, by rw [upstreamFailureFrame, sendErrorFrame, hmsg]⟩

/-- Concrete check: for the sample reqwest error the emitted StreamError
message carries the full URL, query string included. -/
theorem streamError_no_sanitization_witness :
    ∃ p q, upstreamErrorMsg .connect sampleUpstreamErrText =
        p ++ "https://api.example.com/v1/chat?key=secret123" ++ q ∧
      (upstreamFailureFrame 7 .connect sampleUpstreamErrText).payload =
        strBytes (p ++ "https://api.example.com/v1/chat?key=secret123" ++ q) :=
  streamError_no_sanitization 7 .connect sampleUpstreamErrText
    "error sending request for url (" _ ")" (by decide) (by decide)

set_option maxRecDepth 8000 in
/-- C4 counterexample: the StreamError payload the stream handler sends for
the sample upstream failure contains the request URL verbatim, while the
sanitizer of delegate.rs (which the tunnel path never calls) would have
altered the message — note that even that sanitizer only deletes the
scheme prefix, keeping host, path and query. -/
theorem streamError_url_leak_counterexample :
    (upstreamFailureFrame 7 .connect sampleUpstreamErrText).payload =
      strBytes ("upstream connect error: error sending request for url (" ++
        "https://api.example.com/v1/chat?key=secret123" ++ ")") ∧
      sanitizeUpstreamError (upstreamErrorMsg .connect sampleUpstreamErrText) =
        ("upstream connect error: error sending request for url " ++
          "(api.example.com/v1/chat?key=secret123)") ∧
      sanitizeUpstreamError (upstreamErrorMsg .connect sampleUpstreamErrText) ≠
        upstreamErrorMsg .connect sampleUpstreamErrText := by
  refine ⟨by decide, by decide, by decide⟩

/-! ## Dynamic runtime configuration (src/runtime.rs) -/

/-- Runtime-changeable configuration (`DynamicConfig`, runtime.rs:16).
The `allowed_ports` HashSet becomes a `Finset`. -/
structure DynamicConfig where
  nodeName : String
  allowedPorts : Finset Nat
  logLevel : String
  heartbeatInterval : Nat
  configVersion : Nat
deriving DecidableEq

/-- Remote configuration delta (`RemoteConfig`, registration/client.rs:66). -/
structure RemoteConfig where
  nodeName : Option String
  allowedPorts : Option (List Nat)
  logLevel : Option String
  heartbeatInterval : Option Nat
  timestampTolerance : Option Nat
deriving DecidableEq

/-- Apply a remote config update (`apply_remote_config`, runtime.rs:57).
Returns the new config and whether anything changed. The change-log entries
the source formats for tracing are kept as plain labels here: only their
presence feeds the return value. -/
def applyRemoteConfig (cfg : DynamicConfig) (remote : RemoteConfig)
    (version : Nat) : DynamicConfig × Bool :=
  if version ≤ cfg.configVersion then (cfg, false)
  else
    let s1 : DynamicConfig × List String :=
      match remote.nodeName with
      | some name =>
        if name ≠ cfg.nodeName then
          ({ cfg with nodeName := name }, ["node_name"])
        else (cfg, [])
      | none => (cfg, [])
    let s2 : DynamicConfig × List String :=
      match remote.allowedPorts with
      | some ports =>
        if ports.toFinset ≠ s1.1.allowedPorts then
          ({ s1.1 with allowedPorts := ports.toFinset },
            s1.2 ++ ["allowed_ports"])
        else s1
      | none => s1
    let s3 : DynamicConfig × List String :=
      match remote.heartbeatInterval with
      | some interval =>
        if interval ≠ s2.1.heartbeatInterval then
          ({ s2.1 with heartbeatInterval := interval },
            s2.2 ++ ["heartbeat_interval"])
        else s2
      | none => s2
    let s4 : DynamicConfig × List String :=
      match remote.logLevel with
      | some level =>
        if level ≠ s3.1.logLevel then
          ({ s3.1 with logLevel := level }, s3.2 ++ ["log_level"])
        else s3
      | none => s3
    ({ s4.1 with configVersion := version }, s4.2 ≠ [])

/-- C6: applying a remote config whose version is at most the current one
leaves the DynamicConfig value identical in every field, version included,
and reports no change. -/
theorem applyRemoteConfig_stale_noop (cfg : DynamicConfig)
    (remote : RemoteConfig) (version : Nat)
    (h : version ≤ cfg.configVersion) :
    applyRemoteConfig cfg remote version = (cfg, false) := by
  rw [applyRemoteConfig, if_pos h]

/-- Concrete check: version 5 against current version 5, with deltas that
would otherwise change every field, is a no-op reported as unchanged. -/
theorem applyRemoteConfig_stale_noop_witness :
    applyRemoteConfig
      ⟨"proxy-01", {80, 443}, "info", 30, 5⟩
      ⟨some "other", some [22], some "debug", some 1, none⟩ 5 =
      (⟨"proxy-01", {80, 443}, "info", 30, 5⟩, false) :=
  applyRemoteConfig_stale_noop _ _ 5 (by decide)

/-! ## HTTP method fallback (stream_handler.rs:163)

The method string is parsed by the external http crate
(`meta.method.parse::<reqwest::Method>()`); its grammar — the nine
standard method names plus any nonempty RFC 7230 token as an extension
method — is embedded here. -/

/-- An HTTP method as modelled by the http crate: a standard method or a
validated extension token. -/
inductive HttpMethod where
  | options
  | get
  | post
  | put
  | delete
  | head
  | trace
  | connect
  | patch
  | extension (s : String)
deriving DecidableEq, Repr

/-- Characters the http crate accepts in a method token (RFC 7230 tchar). -/
def isMethodTokenChar (c : Char) : Bool :=
  c.isAlpha || c.isDigit ||
    c == '!' || c == '#' || c == '$' || c == '%' || c == '&' ||
    c == '*' || c == '+' || c == '-' || c == '.' || c == '^' ||
    c == '_' || c == '|' || c == '~' ||
    c == Char.ofNat 0x27 || c == Char.ofNat 0x60

/-- Parse a method string as `http::Method::from_str` does: exact match on
the nine standard names, otherwise a nonempty all-token-character string is
an extension method, and anything else fails. -/
def HttpMethod.fromString (s : String) : Option HttpMethod :=
  if s = "OPTIONS" then some .options
  else if s = "GET" then some .get
  else if s = "POST" then some .post
  else if s = "PUT" then some .put
  else if s = "DELETE" then some .delete
  else if s = "HEAD" then some .head
  else if s = "TRACE" then some .trace
  else if s = "CONNECT" then some .connect
  else if s = "PATCH" then some .patch
  else if s ≠ "" ∧ s.data.all isMethodTokenChar then some (.extension s)
  else none

/-- The method actually used by the stream handler (stream_handler.rs:163):
the parse result, or GET when parsing fails — no error path exists. -/
def effectiveMethod (s : String) : HttpMethod :=
  (HttpMethod.fromString s).getD .get

/-- The upstream request assembled by the stream handler
(stream_handler.rs:160-172): method with GET fallback, URL and headers
copied from the metadata, the assembled body, and the per-request timeout. -/
structure UpstreamRequest where
  method : HttpMethod
  url : String
  headers : List (String × String)
  body : List Nat
  timeout : Nat
deriving DecidableEq, Repr

/-- Request metadata (`RequestMeta`, protocol.rs:143), the JSON payload of
RequestHeaders frames; the headers map is carried as an association list. -/
structure RequestMeta where
  method : String
  url : String
  headers : List (String × String)
  timeout : Nat
deriving DecidableEq, Repr

/-- Build the upstream request from metadata and the assembled body
(stream_handler.rs:160-172); total — no branch can emit a StreamError
here, in particular not for an unparseable method string. -/
def buildUpstreamRequest (meta : RequestMeta) (body : List Nat) :
    UpstreamRequest :=
  { method := effectiveMethod meta.method
    url := meta.url
    headers := meta.headers
    body := body
    timeout := meta.timeout }

/-- C10: a method string that does not parse is silently replaced by GET in
the upstream request (and a method string that does parse is used as
parsed); request construction is total, so no StreamError arises from an
invalid method. -/
theorem buildUpstreamRequest_method (meta : RequestMeta) (body : List Nat) :
    (HttpMethod.fromString meta.method = none →
      (buildUpstreamRequest meta body).method = .get) ∧
    (∀ m, HttpMethod.fromString meta.method = some m →
      (buildUpstreamRequest meta body).method = m) := by
  constructor
  · intro h
    rw [buildUpstreamRequest]
    simp [effectiveMethod, h]
  · intro m h
    rw [buildUpstreamRequest]
    simp [effectiveMethod, h]

/-- Concrete check: the method string "BAD METHOD" (a space is not a token
character) fails to parse and the built request carries GET. -/
theorem buildUpstreamRequest_method_witness :
    (buildUpstreamRequest ⟨"BAD METHOD", "http://example.com", [], 60⟩
      []).method = .get :=
  (buildUpstreamRequest_method ⟨"BAD METHOD", "http://example.com", [], 60⟩
    []).1 (by decide)

/-! ## Private-address predicate (src/target_filter.rs:9-84) -/

/-- An IPv4 address as four octets. -/
structure Ipv4 where
  o0 : Nat
  o1 : Nat
  o2 : Nat
  o3 : Nat
deriving DecidableEq, Repr

/-- An IPv6 address as eight 16-bit segments. -/
structure Ipv6 where
  s0 : Nat
  s1 : Nat
  s2 : Nat
  s3 : Nat
  s4 : Nat
  s5 : Nat
  s6 : Nat
  s7 : Nat
deriving DecidableEq, Repr

/-- An IP address (`std::net::IpAddr`). -/
inductive IpAddr where
  | v4 (a : Ipv4)
  | v6 (a : Ipv6)
deriving DecidableEq, Repr

/-- Private/reserved IPv4 test (`is_private_ipv4`, target_filter.rs:16):
10/8, 172.16/12, 192.168/16, 127/8, 169.254/16, 0/8, 100.64/10,
192.0.0/24, 198.18/15, 240/4. -/
def isPrivateIpv4 (ip : Ipv4) : Bool :=
  decide (ip.o0 = 10) ||
  (decide (ip.o0 = 172) && decide (16 ≤ ip.o1) && decide (ip.o1 ≤ 31)) ||
  (decide (ip.o0 = 192) && decide (ip.o1 = 168)) ||
  decide (ip.o0 = 127) ||
  (decide (ip.o0 = 169) && decide (ip.o1 = 254)) ||
  decide (ip.o0 = 0) ||
  (decide (ip.o0 = 100) && decide (64 ≤ ip.o1) && decide (ip.o1 ≤ 127)) ||
  (decide (ip.o0 = 192) && decide (ip.o1 = 0) && decide (ip.o2 = 0)) ||
  (decide (ip.o0 = 198) && decide (18 ≤ ip.o1) && decide (ip.o1 ≤ 19)) ||
  decide (240 ≤ ip.o0)

/-- IPv4-mapped extraction (`Ipv6Addr::to_ipv4_mapped`): defined exactly
when the address is `::ffff:a.b.c.d`. -/
def toIpv4Mapped (ip : Ipv6) : Option Ipv4 :=
  if ip.s0 = 0 ∧ ip.s1 = 0 ∧ ip.s2 = 0 ∧ ip.s3 = 0 ∧ ip.s4 = 0 ∧
      ip.s5 = 0xffff then
    some ⟨ip.s6 / 256, ip.s6 % 256, ip.s7 / 256, ip.s7 % 256⟩
  else none

/-- Private/reserved IPv6 test (`is_private_ipv6`, target_filter.rs:61):
loopback, unspecified, fc00::/7, fe80::/10, and IPv4-mapped addresses with
a private embedded IPv4. -/
def isPrivateIpv6 (ip : Ipv6) : Bool :=
  (decide (ip.s0 = 0) && decide (ip.s1 = 0) && decide (ip.s2 = 0) &&
    decide (ip.s3 = 0) && decide (ip.s4 = 0) && decide (ip.s5 = 0) &&
    decide (ip.s6 = 0) && decide (ip.s7 = 1)) ||
  (decide (ip.s0 = 0) && decide (ip.s1 = 0) && decide (ip.s2 = 0) &&
    decide (ip.s3 = 0) && decide (ip.s4 = 0) && decide (ip.s5 = 0) &&
    decide (ip.s6 = 0) && decide (ip.s7 = 0)) ||
  decide (ip.s0 &&& 0xfe00 = 0xfc00) ||
  decide (ip.s0 &&& 0xffc0 = 0xfe80) ||
  (match toIpv4Mapped ip with
   | some v4 => isPrivateIpv4 v4
   | none => false)

/-- Private/reserved test for either family (`is_private_ip`,
target_filter.rs:9). -/
def isPrivateIp : IpAddr → Bool
  | .v4 a => isPrivateIpv4 a
  | .v6 a => isPrivateIpv6 a

/-- A socket address (`std::net::SocketAddr`). -/
structure SockAddr where
  ip : IpAddr
  port : Nat
deriving DecidableEq, Repr

/-- Filter errors (`FilterError`, target_filter.rs:87). -/
inductive FilterError where
  | privateIp (ip : IpAddr)
  | portNotAllowed (port : Nat)
  | dnsResolutionFailed (host : String)
  | noPublicAddrs (host : String)
deriving DecidableEq, Repr

/-! ## DNS validation cache (src/target_filter.rs:111-211)

Time (`Instant`) is a `Nat`. The source keys its HashMap by the string
`format!("{}:{}", host.to_ascii_lowercase(), port)`; because the digits
after the final colon determine the port and the remainder determines the
lowercased host, that string is in bijection with the pair
`(lowercased host, port)`, which is used as the key type here. The map
itself becomes an association list whose order stands for the HashMap's
iteration order. -/

/-- ASCII lowercasing (`str::to_ascii_lowercase`); Lean's `Char.toLower`
also maps exactly the ASCII range A–Z. -/
def asciiLower (s : String) : String := String.mk (s.data.map Char.toLower)

/-- Cache key for a host and port (`DnsCache::key`, target_filter.rs:208). -/
def cacheKey (host : String) (port : Nat) : String × Nat :=
  (asciiLower host, port)

/-- One cache entry (`DnsCacheEntry`, target_filter.rs:111). -/
structure DnsCacheEntry where
  addrs : List SockAddr
  expiresAt : Nat
  insertedAt : Nat
deriving DecidableEq, Repr

/-- The DNS cache (`DnsCache`, target_filter.rs:120). -/
structure DnsCache where
  ttl : Nat
  capacity : Nat
  entries : List ((String × Nat) × DnsCacheEntry)
deriving DecidableEq, Repr

/-- Look up cached addresses for host and port at time `now`
(`DnsCache::get`, target_filter.rs:155): `none` when TTL or capacity is
zero; an unexpired entry is returned as-is; an expired entry is removed
and `none` returned. The returned cache is the post-call state. -/
def DnsCache.get (c : DnsCache) (host : String) (port : Nat) (now : Nat) :
    Option (List SockAddr) × DnsCache :=
  if c.capacity = 0 ∨ c.ttl = 0 then (none, c)
  else
    match c.entries.find? (fun e => e.1 == cacheKey host port) with
    | some e =>
      if now < e.2.expiresAt then (some e.2.addrs, c)
      else
        (none, { c with entries :=
          c.entries.filter (fun e2 => !(e2.1 == cacheKey host port)) })
    | none => (none, c)

/-- First entry with the minimal insertion time (Rust
`iter().min_by_key(inserted_at)`, which keeps the first of equal minima in
iteration order). -/
def findOldestEntry :
    List ((String × Nat) × DnsCacheEntry) →
      Option ((String × Nat) × DnsCacheEntry)
  | [] => none
  | e :: rest =>
    match findOldestEntry rest with
    | none => some e
    | some e2 =>
      if e2.2.insertedAt < e.2.insertedAt then some e2 else some e

/-- The eviction loop of `DnsCache::insert` (target_filter.rs:187-197):
while the map is at capacity, remove the entry with the oldest insertion
time (break when there is none). Each iteration removes one entry, so the
loop runs at most `entries.length` times; the fuel realizes exactly that
termination bound and `insert` supplies `entries.length + 1`. -/
def evictLoop (capacity : Nat) :
    Nat → List ((String × Nat) × DnsCacheEntry) →
      List ((String × Nat) × DnsCacheEntry)
  | 0, entries => entries
  | fuel + 1, entries =>
    if capacity ≤ entries.length then
      match findOldestEntry entries with
      | none => entries
      | some e =>
        evictLoop capacity fuel (entries.eraseP (fun x => x.1 == e.1))
    else entries

/-- Insert resolved addresses (`DnsCache::insert`, target_filter.rs:179):
no-op when TTL, capacity, or the address list is empty; otherwise drop
expired entries, evict the oldest while at capacity, and store the new
entry (replacing any entry under the same key, as `HashMap::insert`
does) with expiry `now + ttl`. -/
def DnsCache.insert (c : DnsCache) (host : String) (port : Nat)
    (addrs : List SockAddr) (now : Nat) : DnsCache :=
  if c.capacity = 0 ∨ c.ttl = 0 ∨ addrs = [] then c
  else
    let key := cacheKey host port
    let kept := c.entries.filter (fun e => decide (now < e.2.expiresAt))
    let evicted := evictLoop c.capacity (kept.length + 1) kept
    { c with entries :=
        evicted.filter (fun e => !(e.1 == key)) ++
          [(key, ⟨addrs, now + c.ttl, now⟩)] }

/-- Resolve a hostname to public socket addresses
(`resolve_public_addrs`, target_filter.rs:217). The OS resolver
(`tokio::net::lookup_host` on the string `host:port`) is the parameter
`resolve`; `none` models resolution failure, and the addresses it yields
carry the queried port, as the socket API guarantees. Returns the result
and the post-call cache. -/
def resolvePublicAddrs (resolve : String → Nat → Option (List IpAddr))
    (host : String) (port : Nat) (c : DnsCache) (now : Nat) :
    Except FilterError (List SockAddr) × DnsCache :=
  match c.get host port now with
  | (some addrs, c1) => (.ok addrs, c1)
  | (none, c1) =>
    match resolve host port with
    | none => (.error (.dnsResolutionFailed host), c1)
    | some ips =>
      let resolved := ips.map (fun ip => SockAddr.mk ip port)
      if resolved.isEmpty then (.error (.dnsResolutionFailed host), c1)
      else
        let pubAddrs := resolved.filter (fun a => !isPrivateIp a.ip)
        if pubAddrs.isEmpty then (.error (.noPublicAddrs host), c1)
        else (.ok pubAddrs, c1.insert host port pubAddrs now)

/-- Validate a target host and port (`validate_target`,
target_filter.rs:259): port whitelist first; an IP-literal host (the
external `str::parse::<IpAddr>` is the parameter `parseIp`) is rejected
when private and returned as the singleton `ip:port` otherwise, without
touching the cache; all other hosts go through DNS resolution. -/
def validateTarget (parseIp : String → Option IpAddr)
    (resolve : String → Nat → Option (List IpAddr)) (host : String)
    (port : Nat) (allowedPorts : Finset Nat) (c : DnsCache) (now : Nat) :
    Except FilterError (List SockAddr) × DnsCache :=
  if port ∉ allowedPorts then (.error (.portNotAllowed port), c)
  else
    match parseIp host with
    | some ip =>
      if isPrivateIp ip then (.error (.privateIp ip), c)
      else (.ok [⟨ip, port⟩], c)
    | none => resolvePublicAddrs resolve host port c now

/-- After removing every entry under `key` and appending a fresh entry
under `key`, a key lookup finds exactly the fresh entry. -/
theorem find?_filter_append_key (l : List ((String × Nat) × DnsCacheEntry))
    (key : String × Nat) (x : (String × Nat) × DnsCacheEntry)
    (hx : x.1 = key) :
    (l.filter (fun e => !(e.1 == key)) ++ [x]).find? (fun e => e.1 == key) =
      some x := by
  induction l with
  | nil => simp [List.find?, hx]
  | cons a rest ih =>
    by_cases h : a.1 = key
    · simpa [List.filter_cons, h] using ih
    · simpa [List.filter_cons, h, List.find?] using ih

/-- A cache hit leaves the cache unchanged. -/
theorem DnsCache.get_hit_state (c : DnsCache) (host : String) (port : Nat)
    (now : Nat) (a : List SockAddr) (c1 : DnsCache)
    (h : c.get host port now = (some a, c1)) : c1 = c := by
  rw [DnsCache.get] at h
  split at h
  · simp at h
  · split at h
    · split at h
      · exact (Prod.mk.injEq _ _ _ _ ▸ h).2.symm
      · simp at h
    · simp at h

/-- Reading the cache never changes its TTL or capacity. -/
theorem DnsCache.get_state_fields (c : DnsCache) (host : String)
    (port : Nat) (now : Nat) (o : Option (List SockAddr)) (c1 : DnsCache)
    (h : c.get host port now = (o, c1)) :
    c1.ttl = c.ttl ∧ c1.capacity = c.capacity := by
  rw [DnsCache.get] at h
  split at h
  · obtain ⟨-, h2⟩ := Prod.mk.injEq _ _ _ _ ▸ h
    rw [← h2]
    exact ⟨rfl, rfl⟩
  · split at h
    · split at h
      · obtain ⟨-, h2⟩ := Prod.mk.injEq _ _ _ _ ▸ h
        rw [← h2]
        exact ⟨rfl, rfl⟩
      · obtain ⟨-, h2⟩ := Prod.mk.injEq _ _ _ _ ▸ h
        rw [← h2]
        exact ⟨rfl, rfl⟩
    · obtain ⟨-, h2⟩ := Prod.mk.injEq _ _ _ _ ▸ h
      rw [← h2]
      exact ⟨rfl, rfl⟩

/-- The entry written by `insert` is retrievable through `get` until it
expires, for any nonzero TTL and capacity and nonempty address list. -/
theorem DnsCache.get_insert_self (c : DnsCache) (host : String) (port : Nat)
    (addrs : List SockAddr) (now t : Nat) (hcap : c.capacity ≠ 0)
    (httl : c.ttl ≠ 0) (haddrs : addrs ≠ []) (ht : t < now + c.ttl) :
    ((c.insert host port addrs now).get host port t).1 = some addrs := by
  rw [DnsCache.insert, if_neg (by simp [hcap, httl, haddrs])]
  rw [DnsCache.get]
  rw [if_neg (by simp [hcap, httl])]
  rw [find?_filter_append_key _ (cacheKey host port) _ rfl]
  simp only
  rw [if_pos ht]

/-- C1 (amended): when the host is not an IP literal and the cache has
nonzero TTL and capacity, every address list returned by validate_target
is retrievable via get(host, port) at the moment of the call; when the
call was a cache miss, the freshly inserted entry stays retrievable for
the full TTL window starting at the call. (An IP-literal host is returned
without being cached.) -/
theorem validateTarget_resolved_cached (parseIp : String → Option IpAddr)
    (resolve : String → Nat → Option (List IpAddr)) (host : String)
    (port : Nat) (P : Finset Nat) (c : DnsCache) (now : Nat)
    (addrs : List SockAddr) (c2 : DnsCache) (hcap : c.capacity ≠ 0)
    (httl : c.ttl ≠ 0) (hip : parseIp host = none)
    (hres : validateTarget parseIp resolve host port P c now =
      (.ok addrs, c2)) :
    (c2.get host port now).1 = some addrs ∧
      ((c.get host port now).1 = none →
        ∀ t, t < now + c.ttl → (c2.get host port t).1 = some addrs) := by
  by_cases hp : port ∉ P
  · rw [validateTarget, if_pos hp] at hres
    simp at hres
  rw [validateTarget, if_neg hp] at hres
  split at hres
  next ip hip2 =>
    rw [hip] at hip2
    exact absurd hip2 (by simp)
  next hip2 =>
    rw [resolvePublicAddrs] at hres
    split at hres
    next a0 c1 heq =>
      rw [Prod.mk.injEq] at hres
      obtain ⟨ha, hc⟩ := hres
      rw [Except.ok.injEq] at ha
      have hc1 : c1 = c := DnsCache.get_hit_state c host port now a0 c1 heq
      constructor
      · rw [← hc, hc1, heq, ← ha]
      · intro hnone
        rw [heq] at hnone
        simp at hnone
    next c1 heq =>
      obtain ⟨httl1, hcap1⟩ :=
        DnsCache.get_state_fields c host port now none c1 heq
      split at hres
      · simp at hres
      next ips hr =>
        simp only [] at hres
        split at hres
        · simp at hres
        next hne1 =>
          split at hres
          · simp at hres
          next hne2 =>
            rw [Prod.mk.injEq] at hres
            obtain ⟨ha, hc⟩ := hres
            rw [Except.ok.injEq] at ha
            have haddrs : addrs ≠ [] := by
              intro hnil
              rw [hnil] at ha
              exact hne2 (by rw [ha]; rfl)
            rw [ha] at hc
            refine ⟨?_, fun _ t ht => ?_⟩
            · rw [← hc]
              exact DnsCache.get_insert_self c1 host port addrs now now
                (by rw [hcap1]; exact hcap) (by rw [httl1]; exact httl)
                haddrs (by rw [httl1]; omega)
            · rw [← hc]
              exact DnsCache.get_insert_self c1 host port addrs now t
                (by rw [hcap1]; exact hcap) (by rw [httl1]; exact httl)
                haddrs (by rw [httl1]; exact ht)

/-- Stands for `str::parse::<IpAddr>` on inputs where only the literal
"8.8.8.8" is an IP. -/
def parseIpLit : String → Option IpAddr :=
  fun s => if s = "8.8.8.8" then some (.v4 ⟨8, 8, 8, 8⟩) else none

/-- Stands for `str::parse::<IpAddr>` on hostnames that are not literals. -/
def parseNoIp : String → Option IpAddr := fun _ => none

/-- Stands for an OS resolver that always fails. -/
def noResolve : String → Nat → Option (List IpAddr) := fun _ _ => none

/-- Stands for an OS resolver answering 1.1.1.1 for every query. -/
def resolveOne : String → Nat → Option (List IpAddr) :=
  fun _ _ => some [.v4 ⟨1, 1, 1, 1⟩]

/-- Concrete check: a fresh resolution of example.com is cached and
retrievable at the time of the call. -/
theorem validateTarget_resolved_cached_witness :
    ((DnsCache.mk 60 1024 [(("example.com", 443),
        ⟨[⟨.v4 ⟨1, 1, 1, 1⟩, 443⟩], 60, 0⟩)]).get "example.com" 443 0).1 =
      some [⟨.v4 ⟨1, 1, 1, 1⟩, 443⟩] :=
  (validateTarget_resolved_cached parseNoIp resolveOne "example.com" 443
    {443} ⟨60, 1024, []⟩ 0 [⟨.v4 ⟨1, 1, 1, 1⟩, 443⟩]
    ⟨60, 1024, [(("example.com", 443), ⟨[⟨.v4 ⟨1, 1, 1, 1⟩, 443⟩], 60, 0⟩)]⟩
    (by decide) (by decide) rfl (by decide)).1

/-- C1 counterexample: for an IP-literal host, validate_target returns the
address but inserts nothing into the DNS cache — the returned address is
not retrievable via get for any fraction of the TTL window, so the claim
fails in the IP-literal case. -/
theorem validateTarget_ip_literal_not_cached :
    validateTarget parseIpLit noResolve "8.8.8.8" 443 {443}
        ⟨60, 1024, []⟩ 0 =
      (.ok [⟨.v4 ⟨8, 8, 8, 8⟩, 443⟩], ⟨60, 1024, []⟩) ∧
      ((⟨60, 1024, []⟩ : DnsCache).get "8.8.8.8" 443 0).1 = none := by
  exact ⟨rfl, rfl⟩

/-- Cache wellformedness (the data-model invariant of the spec): every
cached address is public and carries the port of its key. Maintained by
the code because only resolve_public_addrs inserts. -/
def CacheWF (c : DnsCache) : Prop :=
  ∀ e ∈ c.entries, ∀ a ∈ e.2.addrs,
    isPrivateIp a.ip = false ∧ a.port = e.1.2

/-- Wellformedness only shrinks with the entry list. -/
theorem cacheWF_subset (c c2 : DnsCache)
    (hsub : ∀ e ∈ c2.entries, e ∈ c.entries) (hwf : CacheWF c) :
    CacheWF c2 :=
  fun e he => hwf e (hsub e he)

/-- The eviction loop only removes entries. -/
theorem evictLoop_mem (cap : Nat) (fuel : Nat)
    (l : List ((String × Nat) × DnsCacheEntry)) :
    ∀ x ∈ evictLoop cap fuel l, x ∈ l := by
  induction fuel generalizing l with
  | zero => intro x hx; rw [evictLoop] at hx; exact hx
  | succ fuel ih =>
    intro x hx
    rw [evictLoop] at hx
    split at hx
    · split at hx
      · exact hx
      · exact List.mem_of_mem_eraseP (ih _ x hx)
    · exact hx

/-- Reading the cache preserves wellformedness. -/
theorem DnsCache.get_wf (c : DnsCache) (host : String) (port : Nat)
    (now : Nat) (hwf : CacheWF c) : CacheWF (c.get host port now).2 := by
  rw [DnsCache.get]
  split
  · exact hwf
  · split
    · split
      · exact hwf
      · exact cacheWF_subset c _
          (fun e he => (List.mem_filter.mp he).1) hwf
    · exact hwf

/-- Inserting public addresses that carry the inserted port preserves
wellformedness. -/
theorem DnsCache.insert_wf (c : DnsCache) (host : String) (port : Nat)
    (addrs : List SockAddr) (now : Nat) (hwf : CacheWF c)
    (haddrs : ∀ a ∈ addrs, isPrivateIp a.ip = false ∧ a.port = port) :
    CacheWF (c.insert host port addrs now) := by
  rw [DnsCache.insert]
  split
  · exact hwf
  · intro e he
    simp only at he
    rcases List.mem_append.mp he with h | h
    · have h1 := (List.mem_filter.mp h).1
      have h2 := evictLoop_mem c.capacity _ _ e h1
      have h3 := (List.mem_filter.mp h2).1
      exact hwf e h3
    · simp only [List.mem_singleton] at h
      subst h
      exact haddrs

/-- C2: validate_target rejects ports outside the allow-list with
PortNotAllowed; an IP-literal host yields PrivateIp when private and
exactly the singleton `ip:port` otherwise; and on any success over a
wellformed cache, every returned address carries the requested port and a
non-private IP. -/
theorem validateTarget_spec (parseIp : String → Option IpAddr)
    (resolve : String → Nat → Option (List IpAddr)) (host : String)
    (port : Nat) (P : Finset Nat) (c : DnsCache) (now : Nat)
    (hwf : CacheWF c) :
    (port ∉ P →
      validateTarget parseIp resolve host port P c now =
        (.error (.portNotAllowed port), c)) ∧
    (∀ ip, parseIp host = some ip → port ∈ P →
      (isPrivateIp ip = true →
        validateTarget parseIp resolve host port P c now =
          (.error (.privateIp ip), c)) ∧
      (isPrivateIp ip = false →
        validateTarget parseIp resolve host port P c now =
          (.ok [⟨ip, port⟩], c))) ∧
    (∀ addrs, (validateTarget parseIp resolve host port P c now).1 =
        .ok addrs →
      ∀ a ∈ addrs, a.port = port ∧ isPrivateIp a.ip = false) ∧
    CacheWF (validateTarget parseIp resolve host port P c now).2 := by
  refine ⟨fun hp => ?_, fun ip hip hpP => ?_, fun addrs hok a ha => ?_,
    ?_⟩
  · rw [validateTarget, if_pos hp]
  · have hnp : ¬port ∉ P := by simp [hpP]
    constructor
    · intro hpriv
      simp only [validateTarget, if_neg hnp, hip]
      rw [if_pos hpriv]
    · intro hpub
      simp only [validateTarget, if_neg hnp, hip]
      rw [if_neg (by rw [hpub]; simp)]
  · by_cases hp : port ∉ P
    · rw [validateTarget, if_pos hp] at hok
      simp at hok
    rw [validateTarget, if_neg hp] at hok
    split at hok
    next ip hip2 =>
      split at hok
      · simp at hok
      next hpriv =>
        replace hok : [(⟨ip, port⟩ : SockAddr)] = addrs := by simpa using hok
        rw [← hok] at ha
        simp only [List.mem_singleton] at ha
        subst ha
        exact ⟨rfl, by simpa using hpriv⟩
    next hipNone =>
      rw [resolvePublicAddrs] at hok
      split at hok
      next a0 c1 heq =>
        replace hok : a0 = addrs := by simpa using hok
        rw [← hok] at ha
        rw [DnsCache.get] at heq
        split at heq
        · simp at heq
        · split at heq
          next e hfind =>
            split at heq
            next hexp =>
              rw [Prod.mk.injEq] at heq
              obtain ⟨h1, -⟩ := heq
              replace h1 : e.2.addrs = a0 := by simpa using h1
              have hmem := List.mem_of_find?_eq_some hfind
              have hkey : e.1 = cacheKey host port := by
                simpa using List.find?_some hfind
              have hWFe := hwf e hmem a (by rw [h1]; exact ha)
              refine ⟨?_, hWFe.1⟩
              rw [hWFe.2, hkey]
              rfl
            · simp at heq
          · simp at heq
      next c1 heq =>
        split at hok
        · simp at hok
        next ips hr =>
          simp only [] at hok
          split at hok
          · simp at hok
          next hne1 =>
            split at hok
            · simp at hok
            next hne2 =>
              replace hok := by simpa using hok
              rw [← hok] at ha
              have hmem := List.mem_filter.mp ha
              obtain ⟨ip0, -, hip0⟩ := List.mem_map.mp hmem.1
              exact ⟨by rw [← hip0], by simpa using hmem.2⟩
  · rw [validateTarget]
    split
    · exact hwf
    · split
      · split
        · exact hwf
        · exact hwf
      · rw [resolvePublicAddrs]
        split
        next a0 c1 heq =>
          have := DnsCache.get_wf c host port now hwf
          rw [heq] at this
          exact this
        next c1 heq =>
          have hwf1 : CacheWF c1 := by
            have := DnsCache.get_wf c host port now hwf
            rw [heq] at this
            exact this
          split
          · exact hwf1
          · simp only []
            split
            · exact hwf1
            · split
              · exact hwf1
              · refine DnsCache.insert_wf c1 host port _ now hwf1 ?_
                intro a ha2
                have hm := List.mem_filter.mp ha2
                obtain ⟨ip0, -, hip0⟩ := List.mem_map.mp hm.1
                exact ⟨by simpa using hm.2, by rw [← hip0]⟩

/-- Concrete check: over the empty (wellformed) cache, port 22 against the
allow-list of 443 alone is rejected as PortNotAllowed. -/
theorem validateTarget_spec_witness :
    CacheWF ⟨60, 1024, []⟩ ∧
      validateTarget parseIpLit noResolve "8.8.8.8" 22 {443}
          ⟨60, 1024, []⟩ 0 =
        (.error (.portNotAllowed 22), ⟨60, 1024, []⟩) :=
  ⟨by intro e he; simp at he,
    (validateTarget_spec parseIpLit noResolve "8.8.8.8" 22 {443}
      ⟨60, 1024, []⟩ 0 (by intro e he; simp at he)).1 (by decide)⟩

/-! ## Dispatcher loop (src/tunnel/dispatcher.rs)

The read loop is embedded as a step function over the live-stream map,
which the source keys by stream id (the mapped body-channel senders and
the spawned task handles are runtime objects and are dropped here, so the
map becomes a `Finset` of ids). Gzip decompression and serde JSON parsing
are external and live in the per-event environment, together with the
writer channel's fullness, which decides whether a `try_send` delivers. -/

/-- Per-event external environment of the dispatcher. -/
structure DispEnv where
  inflate : List Nat → Option (List Nat)
  parseMeta : List Nat → Except String RequestMeta
  writerFull : Bool

/-- An incoming WebSocket message (tungstenite `Message`): the dispatcher
decodes binary messages, skips Ping/Pong and any other kind, and stops on
Close (dispatcher.rs:74-83). -/
inductive WsMsg where
  | binary (data : List Nat)
  | ping
  | pong
  | close
  | other

/-- Non-blocking send to the writer channel (`try_send`): delivered unless
the channel is full, in which case the frame is silently dropped
(dispatcher.rs:108-121, 131-144, 190-195). -/
def trySend (env : DispEnv) (f : Frame) : List Frame :=
  if env.writerFull then [] else [f]

/-- The stream cap (dispatcher.rs:39):
`state.config.tunnel_max_streams.unwrap_or(128)`. -/
def tunnelMaxStreams (cfgMax : Option Nat) : Nat := cfgMax.getD 128

/-- One iteration of the dispatcher loop (dispatcher.rs:46-219): the new
live-stream set, the frames queued to the writer, and whether the loop
continues. RequestHeaders is decompressed and parsed, then rejected via
try-send when the map is at the cap and inserted otherwise; RequestBody
forwards and removes the stream on END_STREAM; StreamEnd/StreamError
remove the stream; frame-level Ping is answered by try-send Pong; GoAway
and Close end the loop; everything else is ignored. -/
def dispatcherStep (maxStreams : Nat) (env : DispEnv)
    (streams : Finset Nat) (m : WsMsg) : Finset Nat × List Frame × Bool :=
  match m with
  | .ping => (streams, [], true)
  | .pong => (streams, [], true)
  | .other => (streams, [], true)
  | .close => (streams, [], false)
  | .binary data =>
    match Frame.decode data with
    | .error _ => (streams, [], true)
    | .ok frame =>
      match frame.msgType with
      | .requestHeaders =>
        match decompressIfGzip env.inflate frame with
        | none => (streams, [], true)
        | some payload =>
          match env.parseMeta payload with
          | .error e =>
            (streams, trySend env ⟨frame.streamId, .streamError, 0,
              strBytes ("invalid request metadata: " ++ e)⟩, true)
          | .ok _meta =>
            if maxStreams ≤ streams.card then
              (streams, trySend env ⟨frame.streamId, .streamError, 0,
                strBytes "max concurrent streams reached"⟩, true)
            else
              (insert frame.streamId streams, [], true)
      | .requestBody =>
        if frame.streamId ∈ streams then
          (if frame.isEndStream then streams.erase frame.streamId
           else streams, [], true)
        else (streams, [], true)
      | .streamEnd => (streams.erase frame.streamId, [], true)
      | .streamError => (streams.erase frame.streamId, [], true)
      | .ping => (streams, trySend env ⟨0, .pong, 0, frame.payload⟩, true)
      | .heartbeatAck => (streams, [], true)
      | .goAway => (streams, [], false)
      | _ => (streams, [], true)

/-- The dispatcher loop over a sequence of incoming messages, starting
from a given live-stream set; stops early when a step says so. -/
def dispatcherRun (maxStreams : Nat) :
    Finset Nat → List (DispEnv × WsMsg) → Finset Nat
  | streams, [] => streams
  | streams, ev :: rest =>
    let r := dispatcherStep maxStreams ev.1 streams ev.2
    if r.2.2 then dispatcherRun maxStreams r.1 rest else r.1

/-- A dispatcher step never pushes the live-stream set above the cap. -/
theorem dispatcherStep_card (maxStreams : Nat) (env : DispEnv)
    (streams : Finset Nat) (m : WsMsg)
    (h : streams.card ≤ maxStreams) :
    (dispatcherStep maxStreams env streams m).1.card ≤ maxStreams := by
  rw [dispatcherStep.eq_def]
  split
  · exact h
  · exact h
  · exact h
  · exact h
  · split
    · exact h
    · split
      all_goals first
      | exact h
      | exact le_trans (Finset.card_erase_le) h
      | skip
      · split
        · exact h
        · split
          · exact h
          · split
            · exact h
            · exact le_trans (Finset.card_insert_le _ _) (by omega)
      · split
        · split
          · exact le_trans (Finset.card_erase_le) h
          · exact h
        · exact h

/-- The loop invariant: starting at or below the cap, the live-stream set
stays at or below the cap. -/
theorem dispatcherRun_card_le (maxStreams : Nat) (streams : Finset Nat)
    (evs : List (DispEnv × WsMsg)) (h : streams.card ≤ maxStreams) :
    (dispatcherRun maxStreams streams evs).card ≤ maxStreams := by
  induction evs generalizing streams with
  | nil => simpa [dispatcherRun] using h
  | cons ev rest ih =>
    rw [dispatcherRun]
    split
    · exact ih _ (dispatcherStep_card maxStreams ev.1 streams ev.2 h)
    · exact dispatcherStep_card maxStreams ev.1 streams ev.2 h

/-- C5: in every state the dispatcher reaches from the empty map, the
live-stream map holds at most tunnel_max_streams entries; and when a
well-formed RequestHeaders frame arrives with the map at the cap, the map
is unchanged and the only output is a StreamError with payload
"max concurrent streams reached" sent via non-blocking try-send, dropped
when the writer channel is full. -/
theorem dispatcher_stream_cap (cfgMax : Option Nat) :
    (∀ evs, (dispatcherRun (tunnelMaxStreams cfgMax) ∅ evs).card ≤
      tunnelMaxStreams cfgMax) ∧
    (∀ (env : DispEnv) (streams : Finset Nat) (data : List Nat)
      (frame : Frame) (payload : List Nat) (meta : RequestMeta),
      streams.card = tunnelMaxStreams cfgMax →
      Frame.decode data = .ok frame →
      frame.msgType = .requestHeaders →
      decompressIfGzip env.inflate frame = some payload →
      env.parseMeta payload = .ok meta →
      dispatcherStep (tunnelMaxStreams cfgMax) env streams (.binary data) =
        (streams,
          (if env.writerFull then []
           else [⟨frame.streamId, .streamError, 0,
             strBytes "max concurrent streams reached"⟩]),
          true)) := by
  constructor
  · intro evs
    exact dispatcherRun_card_le _ ∅ evs (by simp)
  · intro env streams data frame payload meta hcard hdec hmt hinf hparse
    simp only [dispatcherStep, hdec, hmt, hinf, hparse]
    rw [if_pos (le_of_eq hcard.symm)]
    simp [trySend]

/-- Sample dispatcher environment: identity decompression, a parser that
accepts everything as a GET request, and a writer with room. -/
def dispatchEnvEx : DispEnv :=
  ⟨fun l => some l, fun _ => .ok ⟨"GET", "http://example.com/", [], 60⟩,
    false⟩

/-- Concrete check: with the cap configured to 1 and one live stream, an
incoming RequestHeaders frame leaves the map unchanged and queues exactly
the cap-exceeded StreamError. -/
theorem dispatcher_stream_cap_witness :
    dispatcherStep (tunnelMaxStreams (some 1)) dispatchEnvEx {5}
        (.binary (Frame.encode ⟨9, .requestHeaders, 0, [123, 125]⟩)) =
      ({5}, [⟨9, .streamError, 0,
        strBytes "max concurrent streams reached"⟩], true) := by
  have h := (dispatcher_stream_cap (some 1)).2 dispatchEnvEx {5}
    (Frame.encode ⟨9, .requestHeaders, 0, [123, 125]⟩)
    ⟨9, .requestHeaders, 0, [123, 125]⟩ [123, 125]
    ⟨"GET", "http://example.com/", [], 60⟩
    (by decide) (by decide) rfl (by decide) rfl
  simpa [dispatchEnvEx] using h

end Aether
